import Mathlib

/-!
Verification development for the MemoryLane journaling application.

The development shallowly embeds the version-store operations
(Editor handleSave / handleCreateBranch, App handleAddNote), the
analysis synthesizer (MLEngine.analyzeNote, generateHierarchicalMap,
analyzeVault of the keyword-count engine) and the NodeGraph loader.

Modelling conventions, used throughout:
- JavaScript numbers on the heuristic-scoring paths are embedded as
  exact rationals; the constants 0.4, 0.8, 2.5, 0.1, 0.05, 0.66 appear
  as 2/5, 4/5, 5/2, 1/10, 1/20, 33/50.
- Every call of Math.random(), Date.now() and crypto.randomUUID() is
  passed in as an explicit parameter, so each operation is a pure
  function of its inputs.
- Math.cos, Math.sin and Math.PI are double-precision floats whose
  exact values are irrelevant to every claim below; they are abstracted
  as a MathOracle parameter.
- JavaScript objects used as string-keyed records are embedded as
  association lists; object spread update is alistPut.
- Fallible code paths (a missing branch key, which in JS raises a
  TypeError) are embedded with Option.
-/

namespace MemoryLane

/-- MLModelType from src/types.ts: the analysis-variant identifiers. -/
inductive MLModelType where
  | logisticRegression
  | randomForestLite
  | lstmNeural
  | naiveBayes
  | kMeansClustering
  | decisionTree
  | symbolic
deriving DecidableEq

/-- Sentiment values of MLAnalysis.sentiment in src/types.ts. -/
inductive Sentiment where
  | positive
  | negative
  | neutral
deriving DecidableEq

/-- Note.type in src/types.ts. -/
inductive NoteType where
  | text
  | mindmap
deriving DecidableEq

/-- EmotionScore from src/types.ts. -/
structure EmotionScore where
  label : String
  score : ℚ
  impact : ℚ
deriving DecidableEq

/-- Asset media kind from src/types.ts. -/
inductive AssetType where
  | image
  | video
  | audio
deriving DecidableEq

/-- Asset from src/types.ts (the Blob payload is outside the model). -/
structure Asset where
  id : String
  type : AssetType
  url : String
  name : String
deriving DecidableEq

/-- MLAnalysis from src/types.ts, produced by MLEngine.analyzeNote. -/
structure MLAnalysis where
  emotions : List EmotionScore
  sentiment : Sentiment
  keywords : List String
  modelUsed : MLModelType
  loss : ℚ
  confidence : ℚ
deriving DecidableEq

/-- NodeData.type from src/types.ts. -/
inductive NodeType where
  | paragraph
  | sentence
  | word
  | group
  | asset
deriving DecidableEq

/-- NodeData from src/types.ts: one node of the hierarchical map. -/
structure NodeData where
  id : String
  label : String
  type : NodeType
  emotion : String
  color : String
  x : ℚ
  y : ℚ
  z : ℚ
  parentId : Option String
deriving DecidableEq

/-- Commit from src/types.ts. -/
structure Commit where
  id : String
  timestamp : Nat
  content : String
  author : String
  message : String
  parentId : Option String
  assets : Option (List Asset)
  analysis : Option MLAnalysis
  autoMap : Option (List NodeData)
deriving DecidableEq

/-- Branch from src/types.ts. -/
structure Branch where
  name : String
  commits : List Commit
  head : String
deriving DecidableEq

/-- Note.config from src/types.ts. -/
structure NoteConfig where
  preferredModel : MLModelType
  recommendedModel : MLModelType
  is3D : Bool
deriving DecidableEq

/-- Note from src/types.ts; branches is a string-keyed record, embedded
as an association list in object-key insertion order. -/
structure Note where
  id : String
  title : String
  branches : List (String × Branch)
  activeBranch : String
  tags : List String
  clusters : List String
  createdAt : Nat
  updatedAt : Nat
  type : NoteType
  config : NoteConfig
deriving DecidableEq

/-- GlobalIntelligence from src/types.ts, produced by analyzeVault. -/
structure GlobalIntelligence where
  synapticDensity : ℚ
  emotionalEntropy : ℚ
  dominantThemes : List String
  vaultHealth : ℚ
  mostUsedModel : MLModelType
  totalInferences : Nat
  clusters : List (String × Nat)
deriving DecidableEq

/-- Abstraction of the floating-point Math.cos, Math.sin and Math.PI
used only for cosmetic node coordinates. -/
structure MathOracle where
  cos : ℚ → ℚ
  sin : ℚ → ℚ
  pi : ℚ

/-- Lookup in a string-keyed record embedded as an association list:
the JS read obj.k, none when the key is absent. Keys of a JS object are
unique, so first-match lookup is exact. -/
def alistLookup : List (String × α) → String → Option α
  | [], _ => none
  | p :: t, k => if p.1 = k then some p.2 else alistLookup t k

/-- JS object spread update: replace the value of the key when present
(keeping its position), append the pair otherwise. -/
def alistPut : List (String × α) → String → α → List (String × α)
  | [], k, v => [(k, v)]
  | p :: t, k, v => if p.1 = k then (k, v) :: t else p :: alistPut t k v

theorem alistLookup_put_self (m : List (String × α)) (k : String) (v : α) :
    alistLookup (alistPut m k v) k = some v := by
  induction m with
  | nil => simp [alistPut, alistLookup]
  | cons p t ih =>
    by_cases hp : p.1 = k
    · simp [alistPut, alistLookup, hp]
    · simp [alistPut, alistLookup, hp, ih]

theorem alistLookup_put_ne (m : List (String × α)) (k k' : String) (v : α)
    (h : k' ≠ k) : alistLookup (alistPut m k v) k' = alistLookup m k' := by
  induction m with
  | nil =>
    simp [alistPut, alistLookup]
    exact fun hk => h hk.symm
  | cons p t ih =>
    by_cases hp : p.1 = k
    · have hk : ¬(k = k') := fun hk => h hk.symm
      simp [alistPut, alistLookup, hp, hk]
    · by_cases hp' : p.1 = k'
      · simp only [alistPut, hp, if_neg, not_false_iff]
        simp [alistLookup, hp']
      · simp only [alistPut, hp, if_neg, not_false_iff]
        simp [alistLookup, hp', ih]

theorem mem_alistPut (m : List (String × α)) (k : String) (v : α)
    (p : String × α) (h : p ∈ alistPut m k v) : p ∈ m ∨ p = (k, v) := by
  induction m with
  | nil => simp [alistPut] at h; simp [h]
  | cons q t ih =>
    by_cases hq : q.1 = k
    · simp only [alistPut, hq, if_pos, List.mem_cons] at h
      rcases h with h | h
      · right; exact h
      · left; exact List.mem_cons_of_mem _ h
    · simp only [alistPut, hq, if_neg, not_false_iff, List.mem_cons] at h
      rcases h with h | h
      · left; simp [h]
      · rcases ih h with h' | h'
        · left; exact List.mem_cons_of_mem _ h'
        · right; exact h'

theorem alistLookup_mem (m : List (String × α)) (k : String) (v : α)
    (h : alistLookup m k = some v) : (k, v) ∈ m := by
  induction m with
  | nil => simp [alistLookup] at h
  | cons p t ih =>
    by_cases hp : p.1 = k
    · simp only [alistLookup, hp, if_pos, Option.some.injEq] at h
      have hpv : p = (k, v) := by cases p; simp_all
      rw [hpv]
      exact List.mem_cons_self _ _
    · simp only [alistLookup, hp, if_neg, not_false_iff] at h
      exact List.mem_cons_of_mem _ (ih h)

/-- JS text.toLowerCase() on the ASCII texts of this application,
followed by viewing the string as its character list. -/
def toLowerChars (s : String) : List Char :=
  s.data.map Char.toLower

/-- Helper of countOcc: skip tracks how many positions are still covered
by the previously matched occurrence. -/
def countOccAux (kw : List Char) : List Char → Nat → Nat
  | [], _ => 0
  | c :: t, skip =>
    if 0 < skip then countOccAux kw t (skip - 1)
    else if kw.isPrefixOf (c :: t) then 1 + countOccAux kw t (kw.length - 1)
    else countOccAux kw t 0

/-- The keyword-occurrence count of MLEngine.analyzeNote, from
textLower.split(kw).length - 1 (src/unnamed/part_004): the number of
disjoint occurrences of kw in s, scanning left to right. Models the JS
split for the nonempty separators used by emotionConfigs. -/
def countOcc (kw s : List Char) : Nat :=
  countOccAux kw s 0

/-- The number of ALL start positions of kw in s, mutually overlapping
occurrences included. This is the reading the specification asserts for
the keyword count; it is compared against countOcc below. -/
def countAllOcc (kw : List Char) : List Char → Nat
  | [] => 0
  | c :: t => (if kw.isPrefixOf (c :: t) then 1 else 0) + countAllOcc kw t

theorem countOccAux_le_countAllOcc (kw s : List Char) (skip : Nat) :
    countOccAux kw s skip ≤ countAllOcc kw s := by
  induction s generalizing skip with
  | nil => simp [countOccAux, countAllOcc]
  | cons c t ih =>
    by_cases hs : 0 < skip
    · calc countOccAux kw (c :: t) skip = countOccAux kw t (skip - 1) := by
            simp [countOccAux, hs]
        _ ≤ countAllOcc kw t := ih _
        _ ≤ countAllOcc kw (c :: t) := by simp [countAllOcc]
    · by_cases hp : kw.isPrefixOf (c :: t)
      · have : countOccAux kw (c :: t) skip = 1 + countOccAux kw t (kw.length - 1) := by
          simp [countOccAux, hs, hp]
        rw [this]
        have h2 : countAllOcc kw (c :: t) = 1 + countAllOcc kw t := by
          simp [countAllOcc, hp]
        rw [h2]
        exact Nat.add_le_add_left (ih _) 1
      · have : countOccAux kw (c :: t) skip = countOccAux kw t 0 := by
          simp [countOccAux, hs, hp]
        rw [this]
        calc countOccAux kw t 0 ≤ countAllOcc kw t := ih _
          _ ≤ countAllOcc kw (c :: t) := by simp [countAllOcc]

/-- Whitespace tokenization of MLEngine.analyzeNote: split the
lowercased text on whitespace runs and keep the nonempty tokens. -/
def wordsOfAux : List Char → List Char → List (List Char)
  | [], acc => if acc.isEmpty then [] else [acc.reverse]
  | c :: t, acc =>
    if c.isWhitespace then
      if acc.isEmpty then wordsOfAux t [] else acc.reverse :: wordsOfAux t []
    else
      wordsOfAux t (c :: acc)

/-- The nonempty lowercased whitespace-separated tokens of a text. -/
def wordsOf (s : List Char) : List (List Char) :=
  wordsOfAux s []

/-- The fixed emotion category table of MLEngine (src/unnamed/part_004). -/
structure EmotionConfig where
  label : String
  color : String
  keywords : List String
deriving DecidableEq

def emotionConfigs : List EmotionConfig :=
  [ ⟨"Love", "#f43f5e", ["love", "heart", "adore", "beloved", "cherish", "wonderful"]⟩,
    ⟨"Passion", "#fb923c", ["passion", "fire", "drive", "intensity", "ambition", "excited"]⟩,
    ⟨"Caring", "#2dd4bf", ["care", "help", "kind", "support", "gentle", "soft"]⟩,
    ⟨"Insight", "#ef4444", ["logic", "insight", "analyze", "theory", "fact", "brain"]⟩,
    ⟨"Openness", "#eab308", ["open", "vision", "explore", "dream", "freedom", "sky"]⟩,
    ⟨"Sadness", "#3b82f6", ["sad", "lost", "lonely", "heavy", "gloomy", "rain"]⟩ ]

/-- The per-variant bias weight table MLEngine.modelWeights. -/
def modelWeights : MLModelType → List (String × ℚ)
  | .lstmNeural => [("Passion", 8/5), ("Love", 7/5), ("Sadness", 6/5)]
  | .naiveBayes => [("Insight", 9/5), ("Openness", 11/10)]
  | .decisionTree => [("Caring", 3/2), ("Insight", 7/5)]
  | .randomForestLite => [("Love", 6/5), ("Passion", 6/5), ("Caring", 6/5)]
  | .logisticRegression => [("Insight", 13/10), ("Sadness", 4/5)]
  | .kMeansClustering => [("Openness", 17/10), ("Passion", 9/10)]
  | .symbolic => []

/-- JS this.modelWeights[modelType][cfg.label] || 1.0: an absent weight
defaults to 1, and (by JS falsiness) so would a weight of 0. -/
def biasFor (m : MLModelType) (label : String) : ℚ :=
  match alistLookup (modelWeights m) label with
  | some w => if w = 0 then 1 else w
  | none => 1

/-- The raw category score of MLEngine.analyzeNote, before bias scaling:
score += matches * 0.4 over the keywords of the category. -/
def catRawScore (cfg : EmotionConfig) (textLower : List Char) : ℚ :=
  (cfg.keywords.map (fun kw => (countOcc kw.data textLower : ℚ) * (2/5))).sum

/-- Stable insertion into a list sorted by the strict precedence gt:
the inserted element goes after every existing element it does not
strictly precede. -/
def sInsert (gt : α → α → Bool) (e : α) : List α → List α
  | [] => [e]
  | x :: xs => if gt e x then e :: x :: xs else x :: sInsert gt e xs

/-- Stable sort by the strict precedence gt, the unique result of the
(stable, ES2019) JS Array.sort with a consistent comparator. -/
def sSort (gt : α → α → Bool) (l : List α) : List α :=
  l.foldl (fun acc e => sInsert gt e acc) []

/-- One entry of rawEmotions in MLEngine.analyzeNote: the category
label with its clamped presence score and its word-count-normalized
impact (zero when the text has no words). -/
def rawEmotionFor (modelType : MLModelType) (textLower : List Char) (wordCount : Nat)
    (cfg : EmotionConfig) : EmotionScore :=
  let score := catRawScore cfg textLower
  let bias := biasFor modelType cfg.label
  ⟨cfg.label, min (score * bias * (4/5)) 1,
    if 0 < wordCount then min ((score * (5/2) * bias) / ((wordCount : ℚ) * (1/10))) 1 else 0⟩

/-- MLEngine.analyzeNote of src/unnamed/part_004 (the keyword-count
engine used by the current Editor and App). rLoss and rConf stand for
the two Math.random() calls that only feed the cosmetic loss and
confidence display scalars; the modelUsageStats increment is a side
effect with no influence on the returned value. -/
def analyzeNote (text : String) (modelType : MLModelType) (rLoss rConf : ℚ) : MLAnalysis :=
  let textLower := toLowerChars text
  let words := wordsOf textLower
  let rawEmotions : List EmotionScore :=
    emotionConfigs.map (rawEmotionFor modelType textLower words.length)
  let filtered := rawEmotions.filter (fun e => decide ((1:ℚ)/20 < e.score) || decide ((1:ℚ)/20 < e.impact))
  let sorted := sSort (fun a b => decide (b.impact < a.impact)) filtered
  let emotions := if sorted.isEmpty then [⟨"Neutral", 1, 1/10⟩] else sorted
  { emotions := emotions
    sentiment :=
      if emotions.head?.map (fun e => e.label) = some "Sadness" then .negative else .positive
    keywords := (words.take 8).map (fun w => String.mk w)
    modelUsed := modelType
    loss := 1/100 + rLoss * (2/100)
    confidence := 4/5 + rConf * (15/100) }

/-- JS String.trim on a character list (both ends; the texts involved
are ASCII, where JS and Lean agree on what whitespace is). -/
def trimChars (l : List Char) : List Char :=
  ((l.dropWhile Char.isWhitespace).reverse.dropWhile Char.isWhitespace).reverse

/-- Paragraph splitter of generateHierarchicalMap: the JS
text.split on runs of two or more newline characters, as a character
scanner. State st: 0 = normal, 1 = one pending newline seen,
2 = consuming extra separator newlines (acc is empty in state 2). -/
def spAux : List Char → List Char → Nat → List (List Char)
  | [], acc, st => if st = 1 then ('\n' :: acc).reverse :: [] else [acc.reverse]
  | c :: t, acc, st =>
    if st = 2 then
      if c = '\n' then spAux t acc 2
      else spAux t [c] 0
    else if c = '\n' then
      if st = 1 then acc.reverse :: spAux t [] 2
      else spAux t acc 1
    else
      if st = 1 then spAux t (c :: '\n' :: acc) 0
      else spAux t (c :: acc) 0

def splitParas (s : List Char) : List (List Char) :=
  spAux s [] 0

/-- The nonempty paragraphs of a text:
text.split(blank-line runs).filter(p such that p.trim() is truthy). -/
def paragraphsOf (text : String) : List (List Char) :=
  (splitParas text.data).filter (fun p => p.any (fun c => !c.isWhitespace))

/-- Sentence splitter of generateHierarchicalMap: the JS split of a
paragraph on runs of the characters . ! ? . The Bool is true while
consuming a separator run. -/
def spcAux : List Char → List Char → Bool → List (List Char)
  | [], acc, _ => [acc.reverse]
  | c :: t, acc, inSep =>
    if c = '.' || c = '!' || c = '?' then
      if inSep then spcAux t acc true
      else acc.reverse :: spcAux t [] true
    else
      spcAux t (c :: acc) false

/-- The up-to-three sentences of a paragraph kept by
generateHierarchicalMap: punctuation split, trimmed length above 5,
first three. -/
def sentencesOf (p : List Char) : List (List Char) :=
  ((spcAux p [] false).filter (fun s => 5 < (trimChars s).length)).take 3

/-- True when sub occurs somewhere in s (JS String.includes). -/
def containsSub (s sub : List Char) : Bool :=
  decide (0 < countAllOcc sub s)

/-- MLEngine.simpleSentiment: the first emotion category one of whose
keywords occurs in the lowercased text; Neutral otherwise. -/
def simpleSentiment (p : List Char) : String × String :=
  let t := p.map Char.toLower
  match emotionConfigs.find? (fun cfg => cfg.keywords.any (fun kw => containsSub t kw.data)) with
  | some cfg => (cfg.label, cfg.color)
  | none => ("Neutral", "#64748b")

/-- The root node pushed first by generateHierarchicalMap. -/
def ghmRoot : NodeData :=
  ⟨"root", "Genesis Core", .paragraph, "Genesis", "#8b5cf6", 0, 0, 0, none⟩

/-- The paragraph node of generateHierarchicalMap for paragraph p at
index pIdx out of n paragraphs. -/
def ghmPNode (T : MathOracle) (n pIdx : Nat) (p : List Char) : NodeData :=
  let pSent := simpleSentiment p
  let angle := ((pIdx : ℚ) / (n : ℚ)) * T.pi * 2
  let pLabel := String.mk (trimChars (p.take 35)) ++ (if 35 < p.length then "..." else "")
  ⟨"p-" ++ toString pIdx, pLabel, .paragraph, pSent.1, pSent.2,
    T.cos angle * 420, T.sin angle * 420, -150, some ("root")⟩

/-- The sentence node of generateHierarchicalMap for the enumerated
sentence si of paragraph p at index pIdx out of n paragraphs. -/
def ghmSNode (T : MathOracle) (n pIdx : Nat) (p : List Char) (si : Nat × List Char) : NodeData :=
  let pSent := simpleSentiment p
  let angle := ((pIdx : ℚ) / (n : ℚ)) * T.pi * 2
  let sAngle := angle + ((si.1 : ℚ) - 1) * (3/10)
  let sRadius : ℚ := 420 + 250
  ⟨"s-" ++ toString pIdx ++ "-" ++ toString si.1, String.mk ((trimChars si.2).take 20),
    .sentence, pSent.1, pSent.2, T.cos sAngle * sRadius, T.sin sAngle * sRadius, 0,
    some ("p-" ++ toString pIdx)⟩

/-- MLEngine.generateHierarchicalMap of src/unnamed/part_004: a root
node, one child per nonempty paragraph, and up to three sentence
grandchildren per paragraph. The assets argument of the source is
unused by its body. Node coordinates go through the MathOracle. -/
def generateHierarchicalMap (T : MathOracle) (text : String) (assets : List Asset) : List NodeData :=
  let paragraphs := paragraphsOf text
  let _ := assets
  ghmRoot :: paragraphs.enum.flatMap (fun pi =>
    ghmPNode T paragraphs.length pi.1 pi.2 ::
      (sentencesOf pi.2).enum.map (ghmSNode T paragraphs.length pi.1 pi.2))

/-- One step of the cluster histogram of MLEngine.analyzeVault:
clusters[c] = (clusters[c] || 0) + 1. -/
def bumpCluster (m : List (String × Nat)) (c : String) : List (String × Nat) :=
  alistPut m c (((alistLookup m c).getD 0) + 1)

/-- MLEngine.analyzeVault of src/unnamed/part_004 (the keyword-count
engine used by the current App). rEnt and rHealth stand for the two
Math.random() calls feeding emotionalEntropy and vaultHealth. -/
def analyzeVault (notes : List Note) (rEnt rHealth : ℚ) : GlobalIntelligence :=
  let clusters := notes.foldl (fun m n => n.clusters.foldl bumpCluster m) []
  { synapticDensity := min ((notes.length : ℚ) / 10) 1
    emotionalEntropy := rEnt * (3/5) + 1/5
    dominantThemes :=
      ((sSort (fun a b => decide (b.2 < a.2)) clusters).map (fun p => p.1)).take 4
    vaultHealth := 19/20 + rHealth * (1/25)
    mostUsedModel := .lstmNeural
    totalInferences := notes.length * 5
    clusters := clusters }

/-- The Commit operation of the Version Store (spec 4.1), as realized
by handleSave of src/unnamed/part_000 with the target branch name as an
explicit argument; the Editor instantiates it with note.activeBranch
(see handleSave below). newId stands for crypto.randomUUID, now for the
Date.now() calls of the save, rLoss and rConf for the Math.random()
calls inside analyzeNote. A missing branch key, a TypeError in JS, is
none. The parentId fallback headCommit?.id || null is modelled with the
JS falsiness of the empty string. -/
def commitOp (T : MathOracle) (note : Note) (b : String) (content : String)
    (assets : List Asset) (newId : String) (now : Nat) (rLoss rConf : ℚ) : Option Note :=
  match alistLookup note.branches b with
  | none => none
  | some currentBranch =>
    let analysis := analyzeNote content note.config.preferredModel rLoss rConf
    let autoMap := generateHierarchicalMap T content assets
    let clusters := (analysis.emotions.filter (fun e => decide ((33:ℚ)/50 < e.impact))).map
      (fun e => e.label)
    let headCommit := currentBranch.commits.find? (fun c => c.id == currentBranch.head)
    let newCommit : Commit :=
      { id := newId
        timestamp := now
        content := content
        author := "User"
        message := "Neural Sync"
        parentId :=
          match headCommit with
          | some c => if c.id = "" then none else some c.id
          | none => none
        assets := some assets
        analysis := some analysis
        autoMap := some autoMap }
    let updatedBranch : Branch :=
      { currentBranch with commits := currentBranch.commits ++ [newCommit], head := newCommit.id }
    some { note with
      updatedAt := now
      clusters := clusters
      branches := alistPut note.branches b updatedBranch }

/-- handleSave of src/unnamed/part_000: the Commit operation applied to
the active branch. handleSave of src/components/Editor.tsx performs the
identical branch and commit update (without the clusters, assets and
autoMap extras). -/
def handleSave (T : MathOracle) (note : Note) (content : String) (assets : List Asset)
    (newId : String) (now : Nat) (rLoss rConf : ℚ) : Option Note :=
  commitOp T note note.activeBranch content assets newId now rLoss rConf

/-- handleCreateBranch of src/components/Editor.tsx, as a function of
the prompted branch name. The result some n means onUpdate(n) was
called; none means the early return (falsy name, which also covers a
cancelled prompt, or an already existing name) or the TypeError of a
missing active branch, so no update reaches the caller. -/
def forkBranch (note : Note) (branchName : String) : Option Note :=
  if branchName = "" then none
  else if (alistLookup note.branches branchName).isSome then none
  else
    match alistLookup note.branches note.activeBranch with
    | none => none
    | some currentBranch =>
      some { note with
        activeBranch := branchName
        branches := alistPut note.branches branchName
          { name := branchName, commits := currentBranch.commits, head := currentBranch.head } }

/-- handleAddNote of src/App.tsx: the freshly created Note, with the
two crypto.randomUUID() results and Date.now() as parameters. -/
def newNote (id cid : String) (now : Nat) : Note :=
  { id := id
    title := "Fresh Thought Stream"
    branches := [("main",
      { name := "main"
        head := cid
        commits := [{ id := cid, timestamp := now, content := "", author := "User",
                      message := "Origin", parentId := none, assets := some [],
                      analysis := none, autoMap := none }] })]
    activeBranch := "main"
    tags := []
    clusters := []
    createdAt := now
    updatedAt := now
    type := .text
    config := { preferredModel := .lstmNeural, recommendedModel := .lstmNeural, is3D := false } }

/-- The Note well-formedness invariant of spec section 3: activeBranch
is a key of branches, and the head of every branch is the id of a
commit of that branch. -/
def wfNote (n : Note) : Prop :=
  (alistLookup n.branches n.activeBranch).isSome ∧
  ∀ p ∈ n.branches, ∃ c ∈ (p : String × Branch).2.commits, c.id = p.2.head

instance (n : Note) : Decidable (wfNote n) := by
  unfold wfNote
  infer_instance

/-- The node record of the mindmap NodeGraph components. -/
structure VisualNode where
  id : String
  x : ℚ
  y : ℚ
  label : String
deriving DecidableEq

/-- The outcome of JSON.parse(content) followed by Array.isArray in the
NodeGraph loaders: the parse throws, or yields an array of nodes, or
yields a non-array value. The parse itself is an oracle parameter. -/
inductive ParsedJson where
  | thrown
  | arr (nodes : List VisualNode)
  | nonArray
deriving DecidableEq

/-- note.branches[note.activeBranch].commits.slice(-1)[0].content of
the NodeGraph loaders: none models the TypeError of a missing branch
key or an empty commit list, which the surrounding try/catch turns
into the default tree. -/
def lastHeadContent (note : Note) : Option String :=
  match alistLookup note.branches note.activeBranch with
  | none => none
  | some br => br.commits.getLast?.map (fun c => c.content)

/-- The fallback tree of src/components/NodeGraph.tsx. -/
def defaultNodesA : List VisualNode := [⟨"1", 200, 200, "Central Idea"⟩]

/-- The fallback tree of the NodeGraph of src/unnamed/part_001. -/
def defaultNodesB : List VisualNode := [⟨"1", 400, 300, "Central Thought"⟩]

/-- The loader useEffect of src/components/NodeGraph.tsx: parse the
head content (or the literal empty-array text when the content is
falsy); install the parsed value only when it is an array; on a thrown
parse (or a TypeError reaching the head) install the default tree. A
successfully parsed non-array value installs nothing, so the node set
stays at its previous value prev. -/
def loadGraphA (parse : String → ParsedJson) (prev : List VisualNode) (note : Note) :
    List VisualNode :=
  match lastHeadContent note with
  | none => defaultNodesA
  | some content =>
    match parse (if content = "" then "[]" else content) with
    | .thrown => defaultNodesA
    | .arr ns => ns
    | .nonArray => prev

/-- The loader useEffect of the NodeGraph of src/unnamed/part_001
(lines 213 to 224): identical to loadGraphA except that a successfully
parsed non-array value throws (Not array) inside the try, so it also
falls back to the default tree. -/
def loadGraphB (parse : String → ParsedJson) (note : Note) : List VisualNode :=
  match lastHeadContent note with
  | none => defaultNodesB
  | some content =>
    match parse (if content = "" then "[]" else content) with
    | .thrown => defaultNodesB
    | .arr ns => ns
    | .nonArray => defaultNodesB

/-- A stand-in for the double-precision Math.cos, Math.sin, Math.PI;
no claim depends on the numeric values of node coordinates. -/
def oracle0 : MathOracle := ⟨fun _ => 0, fun _ => 0, 3⟩

/-- A concrete well-formed note: one main branch holding one commit
whose content is the text 5 (valid JSON that is not an array). -/
def sampleBranch : Branch :=
  { name := "main"
    commits := [{ id := "c0", timestamp := 0, content := "5", author := "User",
                  message := "m", parentId := none, assets := none,
                  analysis := none, autoMap := none }]
    head := "c0" }

def sampleNote : Note :=
  { id := "n0"
    title := "T"
    branches := [("main", sampleBranch)]
    activeBranch := "main"
    tags := []
    clusters := []
    createdAt := 0
    updatedAt := 0
    type := .text
    config := { preferredModel := .lstmNeural, recommendedModel := .lstmNeural, is3D := false } }

/-- A well-formed note whose head commit id is the empty string: the
data-model invariants allow it, and it exercises the JS falsiness of
the empty string in headCommit?.id || null. -/
def emptyIdBranch : Branch :=
  { name := "main"
    commits := [{ id := "", timestamp := 0, content := "seed", author := "User",
                  message := "m", parentId := none, assets := none,
                  analysis := none, autoMap := none }]
    head := "" }

def emptyIdNote : Note :=
  { sampleNote with id := "n1", branches := [("main", emptyIdBranch)] }

/-- The note produced by committing the empty text to sampleNote. -/
def sampleCommitted : Note :=
  (commitOp oracle0 sampleNote "main" "" [] "c2" 3 0 0).getD sampleNote

/-- The note produced by forking branch dev off sampleNote. -/
def sampleForked : Note :=
  (forkBranch sampleNote "dev").getD sampleNote

/-- The note produced by an Editor save of the empty text on
sampleNote. -/
def sampleSaved : Note :=
  (handleSave oracle0 sampleNote "" [] "c3" 4 0 0).getD sampleNote

/-- A parse oracle agreeing with JSON.parse on the inputs it is applied
to: the text 5 parses to a non-array value, anything else used here
would throw. -/
def parseStub : String → ParsedJson :=
  fun s => if s = "5" then .nonArray else .thrown

/-- The Openness category of emotionConfigs; its keyword explore is the
one keyword of the engine that can overlap itself. -/
def cfgOpenness : EmotionConfig :=
  ⟨"Openness", "#eab308", ["open", "vision", "explore", "dream", "freedom", "sky"]⟩

/-- A two-paragraph text for the hierarchy witness. -/
def w7text : String :=
  "Helloo there my good friend.\n\nAnother paragraph right here."

/-- All-false predicate images vanish under filter after map. -/
theorem filter_map_false {α β : Type} (f : α → β) (q : β → Bool) (l : List α)
    (h : ∀ a, q (f a) = false) : (l.map f).filter q = [] := by
  induction l with
  | nil => rfl
  | cons a t ih => simp [List.filter_cons, h a, ih]

/-- All-true predicate images survive filter after map. -/
theorem filter_map_true {α β : Type} (f : α → β) (q : β → Bool) (l : List α)
    (h : ∀ a, q (f a) = true) : (l.map f).filter q = l.map f := by
  induction l with
  | nil => rfl
  | cons a t ih => simp [List.filter_cons, h a, ih]

/-- Every keyword has zero occurrences in the empty text, so every raw
category score of the empty text is zero. -/
theorem catRawScore_nil (cfg : EmotionConfig) : catRawScore cfg [] = 0 := by
  unfold catRawScore
  induction cfg.keywords with
  | nil => simp
  | cons a t ih => simp [countOcc, countOccAux, ih]

/-- On the empty text every raw emotion entry is zero-scored. -/
theorem rawEmotionFor_nil (m : MLModelType) (cfg : EmotionConfig) :
    rawEmotionFor m [] 0 cfg = ⟨cfg.label, 0, 0⟩ := by
  unfold rawEmotionFor
  rw [catRawScore_nil]
  have h1 : min ((0:ℚ) * biasFor m cfg.label * (4/5)) 1 = 0 := by
    rw [zero_mul, zero_mul]
    exact min_eq_left (by norm_num)
  simp [h1]

/-- C3: forking a branch name that is already a key of note.branches
returns none, that is, handleCreateBranch returns before calling
onUpdate: no updated Note reaches the caller and the input Note value
is untouched. -/
theorem c3_fork_duplicate_rejected (n : Note) (name : String)
    (h : (alistLookup n.branches name).isSome = true) :
    forkBranch n name = none := by
  unfold forkBranch
  by_cases he : name = ""
  · simp [he]
  · simp [he, h]

theorem c3_witness : forkBranch sampleNote "main" = none :=
  c3_fork_duplicate_rejected sampleNote "main" (by decide)

/-- C4: for every analysis variant, analyzeNote on the empty string
returns exactly the single synthetic Neutral category with score 1 and
impact 1/10, independently of the random display scalars. -/
theorem c4_classify_empty (m : MLModelType) (rLoss rConf : ℚ) :
    (analyzeNote "" m rLoss rConf).emotions = [⟨"Neutral", 1, 1/10⟩] := by
  have htl : toLowerChars "" = [] := rfl
  have hw : wordsOf [] = [] := rfl
  have hq : ∀ lab : String,
      (fun e : EmotionScore => decide ((1:ℚ)/20 < e.score) || decide ((1:ℚ)/20 < e.impact))
        ⟨lab, 0, 0⟩ = false := by
    intro lab
    simp only [Bool.or_eq_false_iff, decide_eq_false_iff_not]
    constructor <;> norm_num
  simp only [analyzeNote, htl, hw, List.length_nil]
  rw [show emotionConfigs.map (rawEmotionFor m [] 0) =
      emotionConfigs.map (fun cfg => (⟨cfg.label, 0, 0⟩ : EmotionScore)) from
    List.map_congr_left (fun cfg _ => rawEmotionFor_nil m cfg)]
  rw [filter_map_false _ _ _ (fun cfg => hq cfg.label)]
  rfl

/-- C5 counterexample: the keyword explore of the Openness category
overlaps itself in the text Explorexplore, which holds two (mutually
overlapping) occurrences of explore but only one disjoint occurrence;
the raw category score of the engine is 2/5, not the 4/5 the
all-occurrences reading of the claim predicts. -/
theorem c5_counterexample :
    cfgOpenness ∈ emotionConfigs ∧
    countOcc "explore".data (toLowerChars "Explorexplore") = 1 ∧
    countAllOcc "explore".data (toLowerChars "Explorexplore") = 2 ∧
    catRawScore cfgOpenness (toLowerChars "Explorexplore") ≠
      (2/5) * ((cfgOpenness.keywords.map
        (fun kw => (countAllOcc kw.data (toLowerChars "Explorexplore") : ℚ))).sum) := by
  refine ⟨by decide, by decide, by decide, ?_⟩
  have h1 : countOcc "open".data (toLowerChars "Explorexplore") = 0 := by decide
  have h2 : countOcc "vision".data (toLowerChars "Explorexplore") = 0 := by decide
  have h3 : countOcc "explore".data (toLowerChars "Explorexplore") = 1 := by decide
  have h4 : countOcc "dream".data (toLowerChars "Explorexplore") = 0 := by decide
  have h5 : countOcc "freedom".data (toLowerChars "Explorexplore") = 0 := by decide
  have h6 : countOcc "sky".data (toLowerChars "Explorexplore") = 0 := by decide
  have g1 : countAllOcc "open".data (toLowerChars "Explorexplore") = 0 := by decide
  have g2 : countAllOcc "vision".data (toLowerChars "Explorexplore") = 0 := by decide
  have g3 : countAllOcc "explore".data (toLowerChars "Explorexplore") = 2 := by decide
  have g4 : countAllOcc "dream".data (toLowerChars "Explorexplore") = 0 := by decide
  have g5 : countAllOcc "freedom".data (toLowerChars "Explorexplore") = 0 := by decide
  have g6 : countAllOcc "sky".data (toLowerChars "Explorexplore") = 0 := by decide
  unfold catRawScore
  simp only [cfgOpenness, List.map_cons, List.map_nil, List.sum_cons, List.sum_nil,
    h1, h2, h3, h4, h5, h6, g1, g2, g3, g4, g5, g6]
  norm_num

/-- C5 amended: the raw category score is 0.4 per keyword occurrence
where occurrences are counted as disjoint left-to-right substring
matches (repeated matches all count); the disjoint count never exceeds,
and for self-overlapping keywords can fall below, the count of all
substring occurrences. -/
theorem c5_substring_scoring :
    (∀ (cfg : EmotionConfig) (l : List Char),
      catRawScore cfg l =
        (2/5) * ((cfg.keywords.map (fun kw => (countOcc kw.data l : ℚ))).sum)) ∧
    (∀ kw s : List Char, countOcc kw s ≤ countAllOcc kw s) := by
  constructor
  · intro cfg l
    unfold catRawScore
    induction cfg.keywords with
    | nil => simp
    | cons a t ih =>
      simp only [List.map_cons, List.sum_cons, ih]
      ring
  · intro kw s
    exact countOccAux_le_countAllOcc kw s 0

/-- C6: classification is deterministic: the two Math.random() calls of
analyzeNote influence only the cosmetic loss and confidence scalars;
emotions, sentiment, keywords and the variant identifier are identical
across runs. -/
theorem c6_deterministic (text : String) (m : MLModelType) (r1 r2 r1' r2' : ℚ) :
    (analyzeNote text m r1 r2).emotions = (analyzeNote text m r1' r2').emotions ∧
    (analyzeNote text m r1 r2).sentiment = (analyzeNote text m r1' r2').sentiment ∧
    (analyzeNote text m r1 r2).keywords = (analyzeNote text m r1' r2').keywords ∧
    (analyzeNote text m r1 r2).modelUsed = (analyzeNote text m r1' r2').modelUsed :=
  ⟨rfl, rfl, rfl, rfl⟩

/-- C8 counterexample: analyzeVault on the empty collection returns
density 0 as claimed, but its health score is 19/20 plus the random
jitter, never 0. -/
theorem c8_counterexample :
    (analyzeVault [] 0 0).synapticDensity = 0 ∧
    (analyzeVault [] 0 0).vaultHealth ≠ 0 := by
  constructor
  · simp only [analyzeVault, List.length_nil]
    norm_num [min_def]
  · simp only [analyzeVault]
    norm_num

/-- C8 amended: analyzeVault on the empty collection returns, without
any error, zero density, empty themes and histogram, zero inference
count, entropy 1/5 plus 3/5 of its random scalar, and health 19/20
plus 1/25 of its random scalar (so health is near 1, not 0). -/
theorem c8_vault_empty (rEnt rHealth : ℚ) :
    (analyzeVault [] rEnt rHealth).synapticDensity = 0 ∧
    (analyzeVault [] rEnt rHealth).dominantThemes = [] ∧
    (analyzeVault [] rEnt rHealth).clusters = [] ∧
    (analyzeVault [] rEnt rHealth).totalInferences = 0 ∧
    (analyzeVault [] rEnt rHealth).emotionalEntropy = rEnt * (3/5) + 1/5 ∧
    (analyzeVault [] rEnt rHealth).vaultHealth = 19/20 + rHealth * (1/25) := by
  refine ⟨?_, rfl, rfl, rfl, rfl, rfl⟩
  simp only [analyzeVault, List.length_nil]
  norm_num [min_def]

/-- C1 amended: committing to an existing branch of an invariant-
satisfying Note appends exactly one new commit to that branch (no
existing Commit value is mutated or removed), sets the branch head to
the new commit id, and refreshes updatedAt; the appended commit
parentId equals the prior branch head whenever that head id is
nonempty (the JS fallback headCommit?.id || null maps an empty-string
head id to null). -/
theorem c1_commit_appends (T : MathOracle) (n : Note) (b content : String)
    (assets : List Asset) (newId : String) (now : Nat) (rLoss rConf : ℚ) (br : Branch)
    (hbr : alistLookup n.branches b = some br) (hwf : wfNote n) :
    ∃ n', commitOp T n b content assets newId now rLoss rConf = some n' ∧
      n'.updatedAt = now ∧
      ∃ br', alistLookup n'.branches b = some br' ∧
        ∃ newC, br'.commits = br.commits ++ [newC] ∧
          br'.head = newC.id ∧ newC.id = newId ∧
          (br.head ≠ "" → newC.parentId = some br.head) := by
  obtain ⟨hact, hall⟩ := hwf
  obtain ⟨c, hc, hcid⟩ := hall _ (alistLookup_mem _ _ _ hbr)
  obtain ⟨c0, hc0⟩ := Option.isSome_iff_exists.mp (by
    rw [List.find?_isSome]
    exact ⟨c, hc, by simp [hcid]⟩ :
    (br.commits.find? (fun c => c.id == br.head)).isSome = true)
  have hc0id : c0.id = br.head := by simpa using List.find?_some hc0
  simp only [commitOp, hbr]
  refine ⟨_, rfl, rfl, _, alistLookup_put_self _ _ _, _, rfl, rfl, rfl, ?_⟩
  intro hne
  simp only [hc0]
  rw [hc0id]
  simp [hne]

theorem c1_witness :
    ∃ n', commitOp oracle0 sampleNote "main" "x" [] "nid" 7 0 0 = some n' ∧
      n'.updatedAt = 7 ∧
      ∃ br', alistLookup n'.branches "main" = some br' ∧
        ∃ newC, br'.commits = sampleBranch.commits ++ [newC] ∧
          br'.head = newC.id ∧ newC.id = "nid" ∧
          (sampleBranch.head ≠ "" → newC.parentId = some sampleBranch.head) :=
  c1_commit_appends oracle0 sampleNote "main" "x" [] "nid" 7 0 0 sampleBranch rfl (by decide)

/-- C1 counterexample: emptyIdNote satisfies the data-model invariants
and its main branch head is the empty-string commit id; the commit the
save appends carries parentId none rather than the prior head, because
of the JS falsiness of the empty string in headCommit?.id || null. -/
theorem c1_counterexample :
    wfNote emptyIdNote ∧
    (alistLookup emptyIdNote.branches "main").map Branch.head = some "" ∧
    ((commitOp oracle0 emptyIdNote "main" "x" [] "nid" 7 0 0).bind (fun n' =>
      (alistLookup n'.branches "main").bind (fun br =>
        br.commits.getLast?.map Commit.parentId))) = some none ∧
    (none : Option String) ≠ some "" := by
  refine ⟨by decide, rfl, rfl, by simp⟩

/-- C2: the Note well-formedness invariant holds for every freshly
created Note of handleAddNote and is preserved by the Commit/save
operation and by the ForkBranch/create-branch operation. -/
theorem c2_invariant :
    (∀ idN cid now, wfNote (newNote idN cid now)) ∧
    (∀ T n b content assets newId now rLoss rConf n',
      wfNote n → commitOp T n b content assets newId now rLoss rConf = some n' → wfNote n') ∧
    (∀ n name n', wfNote n → forkBranch n name = some n' → wfNote n') := by
  refine ⟨?_, ?_, ?_⟩
  · intro idN cid now
    constructor
    · simp [newNote, alistLookup]
    · intro p hp
      simp only [newNote, List.mem_singleton] at hp
      subst hp
      exact ⟨_, List.mem_singleton_self _, rfl⟩
  · intro T n b content assets newId now rLoss rConf n' hwf hsome
    unfold commitOp at hsome
    cases hbr : alistLookup n.branches b with
    | none => rw [hbr] at hsome; exact absurd hsome (by simp)
    | some br =>
      rw [hbr] at hsome
      simp only [Option.some.injEq] at hsome
      subst hsome
      constructor
      · show (alistLookup (alistPut n.branches b _) n.activeBranch).isSome = true
        by_cases hab : n.activeBranch = b
        · rw [hab, alistLookup_put_self]
          rfl
        · rw [alistLookup_put_ne _ _ _ _ hab]
          exact hwf.1
      · intro p hp
        rcases mem_alistPut _ _ _ _ hp with hm | he
        · exact hwf.2 p hm
        · subst he
          exact ⟨_, List.mem_append_right _ (List.mem_singleton_self _), rfl⟩
  · intro n name n' hwf hsome
    unfold forkBranch at hsome
    by_cases h0 : name = ""
    · simp [h0] at hsome
    · rw [if_neg h0] at hsome
      by_cases h1 : (alistLookup n.branches name).isSome = true
      · simp [h1] at hsome
      · rw [if_neg (by simpa using h1)] at hsome
        cases hact : alistLookup n.branches n.activeBranch with
        | none => rw [hact] at hsome; exact absurd hsome (by simp)
        | some cur =>
          rw [hact] at hsome
          simp only [Option.some.injEq] at hsome
          subst hsome
          constructor
          · show (alistLookup (alistPut n.branches name _) name).isSome = true
            rw [alistLookup_put_self]
            rfl
          · intro p hp
            rcases mem_alistPut _ _ _ _ hp with hm | he
            · exact hwf.2 p hm
            · subst he
              exact hwf.2 (n.activeBranch, cur) (alistLookup_mem _ _ _ hact)

theorem c2_witness :
    wfNote (newNote "n1" "c1" 0) ∧ wfNote sampleCommitted ∧ wfNote sampleForked :=
  ⟨c2_invariant.1 "n1" "c1" 0,
   c2_invariant.2.1 oracle0 sampleNote "main" "" [] "c2" 3 0 0 sampleCommitted (by decide) rfl,
   c2_invariant.2.2 sampleNote "dev" sampleForked (by decide) rfl⟩

/-- C10: the clusters list of the Note returned by an Editor save is
exactly the labels of the categories of the freshly computed analysis
whose impact exceeds 0.66, in analysis order. -/
theorem c10_clusters_rule (T : MathOracle) (n : Note) (content : String) (assets : List Asset)
    (newId : String) (now : Nat) (rLoss rConf : ℚ) (n' : Note)
    (h : handleSave T n content assets newId now rLoss rConf = some n') :
    n'.clusters = ((analyzeNote content n.config.preferredModel rLoss rConf).emotions.filter
      (fun e => decide ((33:ℚ)/50 < e.impact))).map (fun e => e.label) := by
  unfold handleSave commitOp at h
  cases hbr : alistLookup n.branches n.activeBranch with
  | none => rw [hbr] at h; exact absurd h (by simp)
  | some br =>
    rw [hbr] at h
    simp only [Option.some.injEq] at h
    subst h
    rfl

theorem c10_witness :
    sampleSaved.clusters = ((analyzeNote "" sampleNote.config.preferredModel 0 0).emotions.filter
      (fun e => decide ((33:ℚ)/50 < e.impact))).map (fun e => e.label) :=
  c10_clusters_rule oracle0 sampleNote "" [] "c3" 4 0 0 sampleSaved rfl

/-- C9 counterexample: the loader of src/components/NodeGraph.tsx, on a
head content that is valid JSON but not an array (the text 5), leaves
the node set at its previous value (here the empty list) instead of
installing the single-node default tree. -/
theorem c9_counterexample :
    lastHeadContent sampleNote = some "5" ∧
    parseStub "5" = ParsedJson.nonArray ∧
    loadGraphA parseStub [] sampleNote = [] ∧
    loadGraphA parseStub [] sampleNote ≠ defaultNodesA := by
  refine ⟨rfl, rfl, rfl, by decide⟩

/-- C9 amended: neither loader ever propagates a parse exception; a
thrown parse, or a missing head commit, installs the single-node
default tree in both loaders, and a successfully parsed array installs
the parsed nodes in both; but on valid JSON that is not an array only
the part_001 loader installs the default tree, while the
components/NodeGraph.tsx loader keeps the previous node set. -/
theorem c9_fail_closed :
    (∀ parse prev note, lastHeadContent note = none →
      loadGraphA parse prev note = defaultNodesA ∧ loadGraphB parse note = defaultNodesB) ∧
    (∀ parse prev note c, lastHeadContent note = some c →
      parse (if c = "" then "[]" else c) = ParsedJson.thrown →
      loadGraphA parse prev note = defaultNodesA ∧ loadGraphB parse note = defaultNodesB) ∧
    (∀ parse prev note c ns, lastHeadContent note = some c →
      parse (if c = "" then "[]" else c) = ParsedJson.arr ns →
      loadGraphA parse prev note = ns ∧ loadGraphB parse note = ns) ∧
    (∀ parse prev note c, lastHeadContent note = some c →
      parse (if c = "" then "[]" else c) = ParsedJson.nonArray →
      loadGraphA parse prev note = prev ∧ loadGraphB parse note = defaultNodesB) := by
  refine ⟨?_, ?_, ?_, ?_⟩
  · intro parse prev note h
    simp [loadGraphA, loadGraphB, h]
  · intro parse prev note c h hp
    simp [loadGraphA, loadGraphB, h, hp]
  · intro parse prev note c ns h hp
    simp [loadGraphA, loadGraphB, h, hp]
  · intro parse prev note c h hp
    simp [loadGraphA, loadGraphB, h, hp]

theorem c9_witness :
    loadGraphA parseStub [] sampleNote = [] ∧ loadGraphB parseStub sampleNote = defaultNodesB :=
  c9_fail_closed.2.2.2 parseStub [] sampleNote "5" rfl rfl

/-- On a text whose nonempty paragraphs are exactly p0 and p1, the
hierarchical map is the root, the paragraph node of p0 with its
sentence nodes, then the paragraph node of p1 with its sentence
nodes. -/
theorem ghm_two_paras (T : MathOracle) (text : String) (p0 p1 : List Char)
    (hps : paragraphsOf text = [p0, p1]) :
    generateHierarchicalMap T text [] =
      ghmRoot :: ghmPNode T 2 0 p0 ::
        ((sentencesOf p0).enum.map (ghmSNode T 2 0 p0) ++
          ghmPNode T 2 1 p1 :: (sentencesOf p1).enum.map (ghmSNode T 2 1 p1)) := by
  have h0 : generateHierarchicalMap T text [] =
      ghmRoot :: ghmPNode T 2 0 p0 ::
        ((sentencesOf p0).enum.map (ghmSNode T 2 0 p0) ++
          ghmPNode T 2 1 p1 :: ((sentencesOf p1).enum.map (ghmSNode T 2 1 p1) ++ [])) := by
    unfold generateHierarchicalMap
    rw [hps]
    rfl
  simpa using h0

/-- A paragraph contributes at most three sentences. -/
theorem sentencesOf_length_le (p : List Char) : (sentencesOf p).length ≤ 3 := by
  unfold sentencesOf
  simp [List.length_take]

/-- C7: on every text with exactly two nonempty paragraphs, the
hierarchical map holds exactly one root node, exactly two paragraph
nodes pointing at the root, at most three sentence nodes pointing at
each paragraph node, no other nodes, and every parentId of the output
is the id of a node of the same output. -/
theorem c7_hierarchy (T : MathOracle) (text : String)
    (h : (paragraphsOf text).length = 2) :
    ((generateHierarchicalMap T text []).filter
        (fun nd => decide (nd.parentId = none))).length = 1 ∧
    ((generateHierarchicalMap T text []).filter
        (fun nd => decide (nd.parentId = some "root"))).length = 2 ∧
    (∀ j, j < 2 → ((generateHierarchicalMap T text []).filter
        (fun nd => decide (nd.parentId = some ("p-" ++ toString j)))).length ≤ 3) ∧
    ((generateHierarchicalMap T text []).length =
      3 + ((generateHierarchicalMap T text []).filter
            (fun nd => decide (nd.parentId = some "p-0"))).length
        + ((generateHierarchicalMap T text []).filter
            (fun nd => decide (nd.parentId = some "p-1"))).length) ∧
    (∀ nd ∈ generateHierarchicalMap T text [], ∀ pid, nd.parentId = some pid →
      ∃ m ∈ generateHierarchicalMap T text [], m.id = pid) := by
  obtain ⟨p0, p1, hps⟩ := List.length_eq_two.mp h
  have hg := ghm_two_paras T text p0 p1 hps
  refine ⟨?_, ?_, ?_, ?_, ?_⟩
  · -- exactly one root node
    have f0 : ((sentencesOf p0).enum.map (ghmSNode T 2 0 p0)).filter
        (fun nd => decide (nd.parentId = none)) = [] := filter_map_false _ _ _ (fun a => rfl)
    have f1 : ((sentencesOf p1).enum.map (ghmSNode T 2 1 p1)).filter
        (fun nd => decide (nd.parentId = none)) = [] := filter_map_false _ _ _ (fun a => rfl)
    have e1 : (decide (ghmRoot.parentId = none)) = true := rfl
    have e2 : (decide ((ghmPNode T 2 0 p0).parentId = none)) = false := rfl
    have e3 : (decide ((ghmPNode T 2 1 p1).parentId = none)) = false := rfl
    simp [hg, List.filter_cons, List.filter_append, f0, f1, e1, e2, e3]
  · -- exactly two paragraph nodes
    have f0 : ((sentencesOf p0).enum.map (ghmSNode T 2 0 p0)).filter
        (fun nd => decide (nd.parentId = some "root")) = [] := filter_map_false _ _ _ (fun a => rfl)
    have f1 : ((sentencesOf p1).enum.map (ghmSNode T 2 1 p1)).filter
        (fun nd => decide (nd.parentId = some "root")) = [] := filter_map_false _ _ _ (fun a => rfl)
    have e1 : (decide (ghmRoot.parentId = some "root")) = false := rfl
    have e2 : (decide ((ghmPNode T 2 0 p0).parentId = some "root")) = true := rfl
    have e3 : (decide ((ghmPNode T 2 1 p1).parentId = some "root")) = true := rfl
    simp [hg, List.filter_cons, List.filter_append, f0, f1, e1, e2, e3]
  · -- at most three sentence nodes per paragraph
    intro j hj
    interval_cases j
    · show ((generateHierarchicalMap T text []).filter
          (fun nd => decide (nd.parentId = some "p-0"))).length ≤ 3
      have f0 : ((sentencesOf p0).enum.map (ghmSNode T 2 0 p0)).filter
          (fun nd => decide (nd.parentId = some "p-0")) =
          (sentencesOf p0).enum.map (ghmSNode T 2 0 p0) := filter_map_true _ _ _ (fun a => rfl)
      have f1 : ((sentencesOf p1).enum.map (ghmSNode T 2 1 p1)).filter
          (fun nd => decide (nd.parentId = some "p-0")) = [] := filter_map_false _ _ _ (fun a => rfl)
      have e1 : (decide (ghmRoot.parentId = some "p-0")) = false := rfl
      have e2 : (decide ((ghmPNode T 2 0 p0).parentId = some "p-0")) = false := rfl
      have e3 : (decide ((ghmPNode T 2 1 p1).parentId = some "p-0")) = false := rfl
      have hle := sentencesOf_length_le p0
      simp [hg, List.filter_cons, List.filter_append, f0, f1, e1, e2, e3]
      omega
    · show ((generateHierarchicalMap T text []).filter
          (fun nd => decide (nd.parentId = some "p-1"))).length ≤ 3
      have f0 : ((sentencesOf p0).enum.map (ghmSNode T 2 0 p0)).filter
          (fun nd => decide (nd.parentId = some "p-1")) = [] := filter_map_false _ _ _ (fun a => rfl)
      have f1 : ((sentencesOf p1).enum.map (ghmSNode T 2 1 p1)).filter
          (fun nd => decide (nd.parentId = some "p-1")) =
          (sentencesOf p1).enum.map (ghmSNode T 2 1 p1) := filter_map_true _ _ _ (fun a => rfl)
      have e1 : (decide (ghmRoot.parentId = some "p-1")) = false := rfl
      have e2 : (decide ((ghmPNode T 2 0 p0).parentId = some "p-1")) = false := rfl
      have e3 : (decide ((ghmPNode T 2 1 p1).parentId = some "p-1")) = false := rfl
      have hle := sentencesOf_length_le p1
      simp [hg, List.filter_cons, List.filter_append, f0, f1, e1, e2, e3]
      omega
  · -- total node count: root, two paragraph nodes, and the sentences
    have f00 : ((sentencesOf p0).enum.map (ghmSNode T 2 0 p0)).filter
        (fun nd => decide (nd.parentId = some "p-0")) =
        (sentencesOf p0).enum.map (ghmSNode T 2 0 p0) := filter_map_true _ _ _ (fun a => rfl)
    have f01 : ((sentencesOf p1).enum.map (ghmSNode T 2 1 p1)).filter
        (fun nd => decide (nd.parentId = some "p-0")) = [] := filter_map_false _ _ _ (fun a => rfl)
    have f10 : ((sentencesOf p0).enum.map (ghmSNode T 2 0 p0)).filter
        (fun nd => decide (nd.parentId = some "p-1")) = [] := filter_map_false _ _ _ (fun a => rfl)
    have f11 : ((sentencesOf p1).enum.map (ghmSNode T 2 1 p1)).filter
        (fun nd => decide (nd.parentId = some "p-1")) =
        (sentencesOf p1).enum.map (ghmSNode T 2 1 p1) := filter_map_true _ _ _ (fun a => rfl)
    have e01 : (decide (ghmRoot.parentId = some "p-0")) = false := rfl
    have e02 : (decide ((ghmPNode T 2 0 p0).parentId = some "p-0")) = false := rfl
    have e03 : (decide ((ghmPNode T 2 1 p1).parentId = some "p-0")) = false := rfl
    have e11 : (decide (ghmRoot.parentId = some "p-1")) = false := rfl
    have e12 : (decide ((ghmPNode T 2 0 p0).parentId = some "p-1")) = false := rfl
    have e13 : (decide ((ghmPNode T 2 1 p1).parentId = some "p-1")) = false := rfl
    simp [hg, List.filter_cons, List.filter_append, List.length_append,
      f00, f01, f10, f11, e01, e02, e03, e11, e12, e13]
    omega
  · -- every parent reference resolves inside the output
    intro nd hnd pid hpid
    have hrootmem : ghmRoot ∈ generateHierarchicalMap T text [] := by
      rw [hg]; exact List.mem_cons_self _ _
    have hp0mem : ghmPNode T 2 0 p0 ∈ generateHierarchicalMap T text [] := by
      rw [hg]
      exact List.mem_cons_of_mem _ (List.mem_cons_self _ _)
    have hp1mem : ghmPNode T 2 1 p1 ∈ generateHierarchicalMap T text [] := by
      rw [hg]
      refine List.mem_cons_of_mem _ (List.mem_cons_of_mem _ ?_)
      exact List.mem_append_right _ (List.mem_cons_self _ _)
    rw [hg] at hnd
    simp only [List.mem_cons, List.mem_append, List.mem_map] at hnd
    rcases hnd with rfl | rfl | ⟨a, ha, rfl⟩ | rfl | ⟨a, ha, rfl⟩
    · exact absurd hpid (by simp [ghmRoot])
    · refine ⟨ghmRoot, hrootmem, ?_⟩
      have : pid = "root" := by
        have h2 : (some "root" : Option String) = some pid := hpid
        simpa using h2.symm
      simp [ghmRoot, this]
    · refine ⟨ghmPNode T 2 0 p0, hp0mem, ?_⟩
      have : pid = "p-0" := by
        have h2 : (some "p-0" : Option String) = some pid := hpid
        simpa using h2.symm
      rw [this]
      rfl
    · refine ⟨ghmRoot, hrootmem, ?_⟩
      have : pid = "root" := by
        have h2 : (some "root" : Option String) = some pid := hpid
        simpa using h2.symm
      simp [ghmRoot, this]
    · refine ⟨ghmPNode T 2 1 p1, hp1mem, ?_⟩
      have : pid = "p-1" := by
        have h2 : (some "p-1" : Option String) = some pid := hpid
        simpa using h2.symm
      rw [this]
      rfl

theorem c7_witness :
    (paragraphsOf w7text).length = 2 ∧
    ((generateHierarchicalMap oracle0 w7text []).filter
        (fun nd => decide (nd.parentId = none))).length = 1 :=
  ⟨by decide, (c7_hierarchy oracle0 w7text (by decide)).1⟩

end MemoryLane
